import Mathlib

/-!
Shallow embedding of the MusicQuest listening-history core:
timestamp normalization, format detection, the Spotify parser, batch
validation, the paginated API scroll-back, the ingestion orchestrator and
the five-axis fingerprint engine, together with theorems settling the
frozen claims about them.

JavaScript numbers are modelled as exact rationals, machine integers as
Int, strings as Lean strings; possibly-absent (undefined) fields are
Option values, and JS truthiness is made explicit at each use site.
Math.log2, the ISO date parser and the clock are opaque library calls
and are passed in as parameters.
-/

namespace MusicQuest

instance exceptDecEq {ε α : Type} [DecidableEq ε] [DecidableEq α] :
    DecidableEq (Except ε α) := fun x y =>
  match x, y with
  | .ok a, .ok b =>
    match decEq a b with
    | isTrue h => isTrue (by rw [h])
    | isFalse h => isFalse (by intro hc; cases hc; exact h rfl)
  | .error a, .error b =>
    match decEq a b with
    | isTrue h => isTrue (by rw [h])
    | isFalse h => isFalse (by intro hc; cases hc; exact h rfl)
  | .ok _, .error _ => isFalse (by intro hc; cases hc)
  | .error _, .ok _ => isFalse (by intro hc; cases hc)

/-- Truthiness of a JS string field: present and non-empty. -/
def truthyStr : Option String → Bool
  | some s => s ≠ ""
  | none => false

/-- JS template-literal rendering of a possibly-missing string
(undefined prints as the string undefined). -/
def jsShow : Option String → String
  | some s => s
  | none => "undefined"

/-- JS short-circuit fallback a || b for a string-valued field:
b is used when a is absent or empty. -/
def jsOrStr (a : Option String) (b : String) : String :=
  match a with
  | some s => if s = "" then b else s
  | none => b

/-- Largest element of a list of integers (Math.max spread; callers guard
against the empty list). -/
def listMax : List Int → Int
  | [] => 0
  | x :: xs => xs.foldl max x

/-- Smallest element of a list of integers (Math.min spread; callers guard
against the empty list). -/
def listMin : List Int → Int
  | [] => 0
  | x :: xs => xs.foldl min x

/-! ## src/utils/listeningStats.js -/

/-- One listen record as consumed by the fingerprint engine. Fields the
engine reads; every one may be absent. -/
structure Listen where
  timestamp : Option Int := none
  listened_at : Option Int := none
  artistName : Option String := none
  trackName : Option String := none
  genres : List String := []
  normalizedGenre : Option String := none
  genre : Option String := none
deriving Repr, DecidableEq

/-- The expression listen.timestamp || listen.listened_at followed by the
JS truthiness test applied by both consistency loops (filter(Boolean) and
the early return): yields the first present, non-zero value. -/
def validTs (l : Listen) : Option Int :=
  let eff : Option Int :=
    match l.timestamp with
    | some t => if t = 0 then l.listened_at else some t
    | none => l.listened_at
  match eff with
  | some t => if t = 0 then none else some t
  | none => none

/-- UTC calendar-day bucket of an epoch-seconds value, as produced by
new Date(ts*1000).toISOString().split(T)[0]: floor division by 86400. -/
def dayKey (t : Int) : Int := Int.fdiv t 86400

/-- calculateConsistency: distinct active days over the ceiling of the
timestamp span in days (clamped below by 1), times 100, rounded,
capped at 100; 50 when no truthy timestamp exists. -/
def calculateConsistency (listens : List Listen) : Int :=
  let timestamps := listens.filterMap validTs
  let days := (timestamps.map dayKey).dedup.length
  if timestamps.length = 0 then 50
  else
    let totalDays : Int :=
      max 1 (Int.ceil (((listMax timestamps - listMin timestamps : Int) : ℚ) / 86400))
    min (round (((days : ℚ) / (totalDays : ℚ)) * 100)) 100

/-- calculateDiscovery: the chronological scan counts each distinct truthy
artist exactly once, so the count is independent of the sort the source
performs first; the scan is therefore taken over the given order. Only
ever invoked on non-empty input (the fingerprint entry point guards the
empty list). -/
def calculateDiscovery (listens : List Listen) : Int :=
  let newArtistCount :=
    ((listens.filterMap (fun l => l.artistName)).filter (fun s => s ≠ "")).dedup.length
  let discoveryRate : ℚ := ((newArtistCount : ℚ) / (listens.length : ℚ)) * 100 * 10
  round (min discoveryRate 100)

/-- Dedup key artistName-trackName built by a JS template literal. -/
def trackKey (l : Listen) : String := jsShow l.artistName ++ "-" ++ jsShow l.trackName

/-- Genre bucket of one listen: first truthy of genres[0], normalizedGenre,
genre, else the literal Unknown. -/
def genreOf (l : Listen) : String :=
  jsOrStr l.genres.head? (jsOrStr l.normalizedGenre (jsOrStr l.genre "Unknown"))

/-- Size of the Set of truthy artist names. -/
def uniqueArtistCount (listens : List Listen) : Nat :=
  ((listens.filterMap (fun l => l.artistName)).filter (fun s => s ≠ "")).dedup.length

/-- Size of the Set of artist-track keys other than the bare dash. -/
def uniqueTrackCount (listens : List Listen) : Nat :=
  ((listens.map trackKey).filter (fun k => k ≠ "-")).dedup.length

/-- The multiset of resolvable genre buckets (the listens counted into
genreCounts). -/
def genreResolved (listens : List Listen) : List String :=
  (listens.map genreOf).filter (fun g => g ≠ "Unknown")

/-- Number of distinct keys of genreCounts. -/
def uniqueGenreCount (listens : List Listen) : Nat :=
  (genreResolved listens).dedup.length

/-- The entropy accumulation loop over Object.values(genreCounts), with
each probability taken against the full listen count. -/
def genreEntropy (log2 : ℚ → ℚ) (listens : List Listen) : ℚ :=
  -((genreResolved listens).dedup.map (fun g =>
      let p : ℚ := ((genreResolved listens).count g : ℚ) / (listens.length : ℚ)
      p * log2 p)).sum

/-- The maxEntropy denominator: log2 of the distinct-genre count when it
exceeds 1, else 1. -/
def varietyMaxEntropy (log2 : ℚ → ℚ) (listens : List Listen) : ℚ :=
  if 1 < uniqueGenreCount listens then log2 (uniqueGenreCount listens : ℚ) else 1

/-- Genre entropy normalized by the maximal entropy for that many genres. -/
def normalizedGenreEntropy (log2 : ℚ → ℚ) (listens : List Listen) : ℚ :=
  genreEntropy log2 listens / varietyMaxEntropy log2 listens

/-- calculateVariety, parameterized by the opaque Math.log2. With no
resolvable genre: the unweighted average of the artist and track ratios.
Otherwise: 0.4 times normalized genre entropy plus 0.3 times each capped
diversity ratio, rounded and clamped to [0, 100]. -/
def calculateVariety (log2 : ℚ → ℚ) (listens : List Listen) : Int :=
  let totalListens := listens.length
  if uniqueGenreCount listens = 0 then
    let basicVariety :=
      round (((uniqueArtistCount listens : ℚ) / (totalListens : ℚ) * 100 * 5 +
              (uniqueTrackCount listens : ℚ) / (totalListens : ℚ) * 100 * 3) / 2)
    min basicVariety 100
  else
    let artistDiversity : ℚ := (uniqueArtistCount listens : ℚ) / (totalListens : ℚ) * 100
    let trackDiversity : ℚ := (uniqueTrackCount listens : ℚ) / (totalListens : ℚ) * 100
    let varietyScore :=
      round (normalizedGenreEntropy log2 listens * 100 * (2/5) +
             min (artistDiversity * 5) 100 * (3/10) +
             min (trackDiversity * 3) 100 * (3/10))
    min (max varietyScore 0) 100

/-- calculateReplayRate: fraction of distinct track keys heard at least
twice, times 100, rounded; 50 when no keyed track exists. -/
def calculateReplayRate (listens : List Listen) : Int :=
  let keys := (listens.map trackKey).filter (fun k => k ≠ "-")
  let uniqueKeys := keys.dedup
  let replayedTracks := (uniqueKeys.filter (fun k => 1 < keys.count k)).length
  let totalUniqueTracks := uniqueKeys.length
  if totalUniqueTracks = 0 then 50
  else round (min ((replayedTracks : ℚ) / (totalUniqueTracks : ℚ) * 100) 100)

/-- Comparator key (a.timestamp || a.listened_at) used by the sorts in
calculateDiscovery and calculateExploration; an absent value makes the
numeric comparator return NaN, which Array.prototype.sort treats as 0. -/
def sortKey (l : Listen) : Option Int :=
  match l.timestamp with
  | some t => if t = 0 then l.listened_at else some t
  | none => l.listened_at

/-- Boolean order corresponding to the JS comparator: pairs with an absent
key compare as equal (comparator NaN is treated as 0 by sort). -/
def tsLe (a b : Listen) : Bool :=
  match sortKey a, sortKey b with
  | some x, some y => x ≤ y
  | _, _ => true

/-- calculateExploration: over the chronologically sorted listens, the
fraction of adjacent pairs with both genres resolvable whose genres
differ, times 200, rounded, capped at 100; 50 when no valid pair exists. -/
def calculateExploration (listens : List Listen) : Int :=
  let sorted := listens.mergeSort tsLe
  let validPairs := (sorted.zip sorted.tail).filter
    (fun p => genreOf p.1 ≠ "Unknown" && genreOf p.2 ≠ "Unknown")
  let validComparisons := validPairs.length
  let genreSwitches := (validPairs.filter (fun p => genreOf p.1 ≠ genreOf p.2)).length
  if validComparisons = 0 then 50
  else round (min ((genreSwitches : ℚ) / (validComparisons : ℚ) * 100 * 2) 100)

/-- The five-axis fingerprint as computed by the engine. -/
structure Fingerprint where
  consistency : Int
  discovery : Int
  variety : Int
  replayRate : Int
  exploration : Int
deriving Repr, DecidableEq

/-- calculateListeningFingerprint: all five axes at 50 on a missing or
empty list, otherwise the five scores. -/
def calculateListeningFingerprint (log2 : ℚ → ℚ) (listens : Option (List Listen)) :
    Fingerprint :=
  match listens with
  | none => ⟨50, 50, 50, 50, 50⟩
  | some l =>
    if l.length = 0 then ⟨50, 50, 50, 50, 50⟩
    else
      ⟨calculateConsistency l, calculateDiscovery l, calculateVariety log2 l,
       calculateReplayRate l, calculateExploration l⟩

/-- One axis value as it reaches validateFingerprintData: none models a
value whose Number() coercion is NaN (missing or non-numeric). -/
def coerceAxis : Option ℚ → ℚ
  | none => 50
  | some q => if q = 0 then 50 else q

/-- A fingerprint object before validation: each axis may be missing or
non-numeric. -/
structure FingerprintRaw where
  consistency : Option ℚ := none
  discovery : Option ℚ := none
  variety : Option ℚ := none
  replayRate : Option ℚ := none
  exploration : Option ℚ := none
deriving Repr, DecidableEq

/-- A validated fingerprint: five plain numbers. -/
structure ValidatedFingerprint where
  consistency : ℚ
  discovery : ℚ
  variety : ℚ
  replayRate : ℚ
  exploration : ℚ
deriving Repr, DecidableEq

/-- validateFingerprintData: null on a missing object; otherwise each axis
passes through Number(x) || 50, and since the coerced values are plain
non-NaN numbers the hasInvalid re-check never fires. -/
def validateFingerprintData : Option FingerprintRaw → Option ValidatedFingerprint
  | none => none
  | some fp =>
    some ⟨coerceAxis fp.consistency, coerceAxis fp.discovery, coerceAxis fp.variety,
          coerceAxis fp.replayRate, coerceAxis fp.exploration⟩

/-! ## src/utils/parsers/universalParser.js -/

/-- A raw Spotify extended-history record: the fields the parser and the
detector read. Any of them may be absent. -/
structure SpotifyItem where
  ts : Option String := none
  master_metadata_track_name : Option String := none
  master_metadata_album_artist_name : Option String := none
  master_metadata_album_album_name : Option String := none
  spotify_track_uri : Option String := none
  ms_played : Option Int := none
  episode_name : Option String := none
deriving Repr, DecidableEq

/-- The expression item.ms_played || 0. -/
def msPlayedVal (i : SpotifyItem) : Int := i.ms_played.getD 0

/-- The filter keeping a Spotify record: truthy timestamp, resolvable
track name (name or URI), truthy artist, and at least 30000 ms played. -/
def spotifyKeep (i : SpotifyItem) : Bool :=
  truthyStr i.ts &&
  (truthyStr i.master_metadata_track_name || truthyStr i.spotify_track_uri) &&
  truthyStr i.master_metadata_album_artist_name &&
  decide (30000 ≤ msPlayedVal i)

/-- The fallback name derived from the track URI:
spotify_track_uri?.split(:)[2]. -/
def uriTrackName (i : SpotifyItem) : Option String :=
  i.spotify_track_uri.bind (fun u => (u.splitOn ":").get? 2)

/-- A canonical record produced by parseSpotifyFormat. -/
structure SpotifyListen where
  id : String
  listened_at : Int
  timestamp : Int
  trackName : String
  artistName : String
  albumName : String
  msPlayed : Int
deriving Repr, DecidableEq

/-- Result object of parseSpotifyFormat. -/
structure SpotifyParseResult where
  success : Bool
  listens : List SpotifyListen
  count : Nat := 0
  totalEntries : Nat := 0
  filtered : Nat := 0
  error : Option String := none
deriving Repr, DecidableEq

/-- parseSpotifyFormat, parameterized by the opaque DOMPurify.sanitize and
by new Date(s).getTime() in milliseconds. A missing or non-array argument
takes the catch path and reports failure; otherwise records failing the
filter are dropped and counted, never raising. -/
def parseSpotifyFormat (sanitize : String → String) (dateParseMs : String → Int)
    (data : Option (List SpotifyItem)) : SpotifyParseResult :=
  match data with
  | none =>
    { success := false, listens := [],
      error := some "Invalid Spotify JSON format: expected array" }
  | some items =>
    let validListens := items.filter spotifyKeep
    let parsedListens := validListens.enum.map (fun iv : Nat × SpotifyItem =>
      let listen := iv.2
      let timestampMs := dateParseMs (jsShow listen.ts)
      let listenedAt := Int.fdiv timestampMs 1000
      ({ id := "spotify-" ++ toString iv.1 ++ "-" ++ toString listenedAt,
         listened_at := listenedAt,
         timestamp := timestampMs,
         trackName := sanitize
           (jsOrStr listen.master_metadata_track_name
             (jsOrStr (uriTrackName listen) "Unknown Track")),
         artistName := sanitize
           (jsOrStr listen.master_metadata_album_artist_name "Unknown Artist"),
         albumName := sanitize
           (jsOrStr listen.master_metadata_album_album_name "Unknown Album"),
         msPlayed := msPlayedVal listen } : SpotifyListen))
    { success := true,
      listens := parsedListens,
      count := parsedListens.length,
      totalEntries := items.length,
      filtered := items.length - validListens.length }

/-- A parsed JSON object as seen by the format detectors: per field, its
truthiness; payloadListensIsArray models
data.payload && Array.isArray(data.payload.listens). -/
structure JsObject where
  listened_at : Bool := false
  track_metadata : Bool := false
  ts : Bool := false
  master_metadata_track_name : Bool := false
  spotify_track_uri : Bool := false
  episode_name : Bool := false
  date_uts : Bool := false
  artist : Bool := false
  payloadListensIsArray : Bool := false
deriving Repr, DecidableEq

/-- A parsed JSON value handed to a detector: an array of objects or a
single object. -/
inductive JsData where
  | arr (items : List JsObject)
  | obj (o : JsObject)
deriving Repr, DecidableEq

/-- Whether the character list s starts with the character list pattern. -/
def listStartsWith : List Char → List Char → Bool
  | _, [] => true
  | [], _ :: _ => false
  | c :: cs, p :: ps => (c = p) && listStartsWith cs ps

/-- Whether pattern occurs contiguously inside s. -/
def listContainsSub : List Char → List Char → Bool
  | [], pat => listStartsWith [] pat
  | c :: rest, pat => listStartsWith (c :: rest) pat || listContainsSub rest pat

/-- s.includes(pattern) on JS strings. -/
def jsIncludes (s pattern : String) : Bool :=
  listContainsSub s.toList pattern.toList

/-- s.toLowerCase(). -/
def jsToLower (s : String) : String := String.mk (s.toList.map Char.toLower)

/-- detectDataFormat of universalParser.js: a non-array value is wrapped
into a one-element array, then first-match rules over the first element,
then the file-name fallback, else failure. -/
def detectDataFormat (data : JsData) (fileName : String) : Except String String :=
  let dataArray := match data with | .arr items => items | .obj o => [o]
  match dataArray with
  | [] => .error "Data array is empty"
  | firstItem :: _ =>
    if firstItem.listened_at && firstItem.track_metadata then .ok "listenbrainz"
    else if firstItem.ts &&
        (firstItem.master_metadata_track_name || firstItem.spotify_track_uri) then
      .ok "spotify"
    else if firstItem.date_uts && firstItem.artist then .ok "lastfm"
    else
      let lowerFileName := jsToLower fileName
      if jsIncludes lowerFileName "spotify" ||
         jsIncludes lowerFileName "streaming_history" then .ok "spotify"
      else if jsIncludes lowerFileName "listenbrainz" then .ok "listenbrainz"
      else if jsIncludes lowerFileName "lastfm" ||
          jsIncludes lowerFileName "last.fm" then .ok "lastfm"
      else .error
        "Unknown data format. Please upload ListenBrainz or Spotify extended streaming history JSON files."

/-- A listened_at value as handed to validateUniversalData: a number, a
string, or absent. -/
inductive JsTs where
  | num (q : ℚ)
  | str (s : String)
  | undef
deriving Repr, DecidableEq

/-- The typeof operator on a listened_at value. -/
def typeofTs : JsTs → String
  | .num _ => "number"
  | .str _ => "string"
  | .undef => "undefined"

/-- The plausibility filter: a number strictly between the two bounds. -/
def tsFilterKeep : JsTs → Option ℚ
  | .num q => if 946684800 < q ∧ q < 2147483647 then some q else none
  | _ => none

/-- The find predicate locating a sample invalid timestamp: not a number,
or strictly outside the closed range. -/
def tsSampleInvalid : JsTs → Bool
  | .num q => decide (q < 946684800) || decide (2147483647 < q)
  | _ => true

/-- Largest element of a list of rationals (callers guard emptiness). -/
def listMaxQ : List ℚ → ℚ
  | [] => 0
  | x :: xs => xs.foldl max x

/-- Smallest element of a list of rationals (callers guard emptiness). -/
def listMinQ : List ℚ → ℚ
  | [] => 0
  | x :: xs => xs.foldl min x

/-- Outcome of validateUniversalData, keeping the distinguishing fields of
each returned object. -/
inductive ValidationResult where
  | invalidEmpty
  | invalidQuality (sampleInvalidTimestamp : Option JsTs) (detectedFormat : String)
  | invalidSpan
  | valid (earliest latest : ℚ)
deriving Repr, DecidableEq

/-- validateUniversalData over the listened_at values of a batch: empty
check, then the 90 percent plausibility ratio, then the minimum span of
0.08 years over the valid timestamps. -/
def validateUniversalData (timestamps : List JsTs) : ValidationResult :=
  match timestamps with
  | [] => .invalidEmpty
  | t0 :: _ =>
    let validTimestamps := timestamps.filterMap tsFilterKeep
    let validPercentage : ℚ :=
      (validTimestamps.length : ℚ) / (timestamps.length : ℚ) * 100
    if validPercentage < 90 then
      .invalidQuality (timestamps.find? tsSampleInvalid) (typeofTs t0)
    else
      let earliest := listMinQ validTimestamps
      let latest := listMaxQ validTimestamps
      let yearSpan : ℚ := (latest - earliest) / (365.25 * 24 * 60 * 60)
      if yearSpan < 0.08 then .invalidSpan
      else .valid earliest latest

/-! ## The streaming-variant parser (unnamed source file part_001) -/

/-- Whether data.payload && Array.isArray(data.payload.listens) holds: a
JSON array value carries no payload property. -/
def payloadHasListens : JsData → Bool
  | .obj o => o.payloadListensIsArray
  | .arr _ => false

/-- The rules of the streaming-variant detector that follow the two array
rules: the ListenBrainz API envelope rule, then a file-name fallback for
Spotify only, else failure. -/
def detectStreamingFallback (data : JsData) (fileName : String) :
    Except String String :=
  if payloadHasListens data then .ok "listenbrainz"
  else
    let lowerFileName := jsToLower fileName
    if jsIncludes lowerFileName "spotify" || jsIncludes lowerFileName "streaming" then
      .ok "spotify"
    else .error
      "Unable to detect file format. Please upload a ListenBrainz JSON export or Spotify extended streaming history"

/-- detectDataFormat of the streaming-variant parser: the two array rules
fire only on a non-empty array; every other value falls through to the
envelope and file-name rules. -/
def detectDataFormatStreaming (data : JsData) (fileName : String) :
    Except String String :=
  match data with
  | .arr (first :: _) =>
    if first.listened_at && first.track_metadata then .ok "listenbrainz"
    else if first.ts &&
        (first.master_metadata_track_name || first.episode_name) then .ok "spotify"
    else detectStreamingFallback data fileName
  | _ => detectStreamingFallback data fileName

/-- A timestamp value given to convertSpotifyTimestamp: a string, a
number, or a value of any other type. -/
inductive TsInput where
  | str (s : String)
  | num (q : ℚ)
  | other
deriving Repr, DecidableEq

/-- convertSpotifyTimestamp, parameterized by the opaque date parser (the
milliseconds of new Date(s), or none when that is an Invalid Date), the
current clock in milliseconds, and the local-time epoch of
new Date(1900, 0, 1). Strings go through the date parser; numbers are
interpreted as epoch milliseconds, epoch seconds, or a spreadsheet serial
date by magnitude; anything else falls back to the current time. -/
def convertSpotifyTimestamp (dateParseMs : String → Option Int)
    (nowMs excelEpochMs : Int) : TsInput → ℚ
  | .str s =>
    match dateParseMs s with
    | none => ((Int.fdiv nowMs 1000 : Int) : ℚ)
    | some ms => ((⌊(ms : ℚ) / 1000⌋ : Int) : ℚ)
  | .num q =>
    if 1000000000000 < q then ((⌊q / 1000⌋ : Int) : ℚ)
    else if 1000000000 < q ∧ q < 2000000000 then q
    else if 40000 < q ∧ q < 60000 then
      let adjustedDays := if 60 < q then q - 2 else q - 1
      let dateMs : ℚ := (excelEpochMs : ℚ) + adjustedDays * 86400000
      ((⌊dateMs / 1000⌋ : Int) : ℚ)
    else ((Int.fdiv nowMs 1000 : Int) : ℚ)
  | .other => ((Int.fdiv nowMs 1000 : Int) : ℚ)

/-! ## src/utils/api/listenbrainz.js -/

/-- A listen as returned by the upstream API page. -/
structure LBRec where
  listened_at : Option Int := none
deriving Repr, DecidableEq

/-- listens[listens.length - 1]?.listened_at: the timestamp of the last
record of a page. -/
def oldestTs (page : List LBRec) : Option Int :=
  page.getLast?.bind (fun r => r.listened_at)

/-- Truthiness of the listened_at of one upstream record. -/
def recTsTruthy (r : LBRec) : Bool :=
  match r.listened_at with
  | some t => t ≠ 0
  | none => false

/-- The oldest listened_at of a page: the minimum over the timestamps
present in it. -/
def pageOldest (page : List LBRec) : Int :=
  listMin (page.filterMap (fun r => r.listened_at))

/-- maxListens && allListens.length >= maxListens: a null or zero cap
never stops the loop. -/
def capReached (cap : Option Nat) (total : Nat) : Bool :=
  match cap with
  | some m => m ≠ 0 && m ≤ total
  | none => false

/-- One recorded iteration of fetchAllUserListens: the cursor the fetch
was issued with, the page received, and the accumulated total after it. -/
structure PageFetch where
  cursor : Option Int
  page : List LBRec
  totalAfter : Nat
deriving Repr, DecidableEq

/-- The loop guard evaluated after an iteration: the page was non-empty,
its oldest record had a truthy timestamp, the page was not smaller than
the requested batch size, and the cap was not reached. -/
def fetchContinues (batchSize : Nat) (cap : Option Nat) (e : PageFetch) : Bool :=
  e.page.length ≠ 0 &&
  (match oldestTs e.page with | some t => t ≠ 0 | none => false) &&
  !(e.page.length < batchSize) &&
  !(capReached cap e.totalAfter)

/-- The iteration trace of fetchAllUserListens over a pure model of the
upstream (cursor to page), with fuel bounding the number of iterations.
Each entry records one fetch; the recursion continues exactly under the
conditions of the source loop. -/
def fetchAllTrace (fetchFn : Option Int → List LBRec) (batchSize : Nat)
    (cap : Option Nat) : Nat → Option Int → Nat → List PageFetch
  | 0, _, _ => []
  | fuel + 1, maxTs, total =>
    let page := fetchFn maxTs
    let entry : PageFetch := ⟨maxTs, page, total + page.length⟩
    if fetchContinues batchSize cap entry then
      match oldestTs page with
      | some t => entry :: fetchAllTrace fetchFn batchSize cap fuel (some (t - 1)) (total + page.length)
      | none => [entry]
    else [entry]

/-! ## src/hooks/useDataParser.js -/

/-- One import unit: its byte size and the outcome of its per-unit
detect-validate-parse pipeline (an error models any caught per-unit throw
or invalid-format skip). -/
structure FileUnit where
  size : Nat
  parseOutcome : Except String (List Listen)
deriving Repr

/-- Terminal failures of a parse run. -/
inductive RunError where
  | sizeLimitExceeded
  | noValidListens
  | mergeFailed
  | validationFailed
deriving Repr, DecidableEq

/-- Result contract of the external merge collaborator. -/
structure MergeOutcome where
  success : Bool
  data : List Listen
  duplicates : Nat
deriving Repr, DecidableEq

/-- Comparator key a.timestamp || a.listened_at || 0 of the final sort. -/
def sortKeyOrZero (l : Listen) : Int := (sortKey l).getD 0

/-- Accumulation over the units: listens of successfully parsed units are
appended in order; a failed unit is skipped (the catch and the
validation-warning paths both continue the loop). -/
def accumulateListens (files : List FileUnit) : List Listen :=
  files.foldl (fun acc f =>
    match f.parseOutcome with
    | .ok listens => acc ++ listens
    | .error _ => acc) []

/-- Whether the per-unit pipeline of a unit produced listens. -/
def outcomeOk (f : FileUnit) : Bool :=
  match f.parseOutcome with
  | .ok _ => true
  | .error _ => false

/-- parseFiles of useDataParser.js, parameterized by the external genre
cleaner, merge engine and corpus validator: size ceiling up front, per-unit
accumulation with local failure recovery, terminal NoValidListens on an
empty aggregate, then sort, clean, merge, and the corpus-wide validation. -/
def parseFiles (files : List FileUnit)
    (cleanGenreData : List Listen → List Listen)
    (mergeListeningData : List Listen → MergeOutcome)
    (validateListeningData : List Listen → Bool) :
    Except RunError (List Listen × Nat) :=
  let totalSize := (files.map (fun f => f.size)).sum
  if 250 * 1024 * 1024 < totalSize then .error .sizeLimitExceeded
  else
    let allListens := accumulateListens files
    if allListens.length = 0 then .error .noValidListens
    else
      let sorted := allListens.mergeSort (fun a b => sortKeyOrZero a ≤ sortKeyOrZero b)
      let cleanedListens := cleanGenreData sorted
      let mergeResult := mergeListeningData cleanedListens
      if mergeResult.success = false then .error .mergeFailed
      else if validateListeningData mergeResult.data = false then .error .validationFailed
      else .ok (mergeResult.data, mergeResult.duplicates)

/-! ## Shared lemmas -/

theorem foldl_max_const (t : Int) :
    ∀ xs : List Int, (∀ u ∈ xs, u = t) → xs.foldl max t = t := by
  intro xs
  induction xs with
  | nil => intro _; rfl
  | cons y ys ih =>
    intro h
    have hy : y = t := h y (List.mem_cons_self _ _)
    simp only [List.foldl_cons, hy, max_self]
    exact ih (fun u hu => h u (List.mem_cons_of_mem _ hu))

theorem foldl_min_const (t : Int) :
    ∀ xs : List Int, (∀ u ∈ xs, u = t) → xs.foldl min t = t := by
  intro xs
  induction xs with
  | nil => intro _; rfl
  | cons y ys ih =>
    intro h
    have hy : y = t := h y (List.mem_cons_self _ _)
    simp only [List.foldl_cons, hy, min_self]
    exact ih (fun u hu => h u (List.mem_cons_of_mem _ hu))

theorem listMax_all_eq (xs : List Int) (t : Int) (hne : xs ≠ [])
    (h : ∀ u ∈ xs, u = t) : listMax xs = t := by
  match xs, hne with
  | x :: rest, _ =>
    have hx : x = t := h x (List.mem_cons_self _ _)
    show rest.foldl max x = t
    rw [hx]
    exact foldl_max_const t rest (fun u hu => h u (List.mem_cons_of_mem _ hu))

theorem listMin_all_eq (xs : List Int) (t : Int) (hne : xs ≠ [])
    (h : ∀ u ∈ xs, u = t) : listMin xs = t := by
  match xs, hne with
  | x :: rest, _ =>
    have hx : x = t := h x (List.mem_cons_self _ _)
    show rest.foldl min x = t
    rw [hx]
    exact foldl_min_const t rest (fun u hu => h u (List.mem_cons_of_mem _ hu))

theorem dedup_all_eq {α : Type} [DecidableEq α] (a : α) :
    ∀ xs : List α, xs ≠ [] → (∀ u ∈ xs, u = a) → xs.dedup = [a] := by
  intro xs
  induction xs with
  | nil => intro h; cases h rfl
  | cons x rest ih =>
    intro _ h
    have hx : x = a := h x (List.mem_cons_self _ _)
    cases rest with
    | nil => simp [hx]
    | cons y ys =>
      have hr : (y :: ys).dedup = [a] :=
        ih (by simp) (fun u hu => h u (List.mem_cons_of_mem _ hu))
      have hy : y = a := h y (List.mem_cons_of_mem _ (List.mem_cons_self _ _))
      have hmem : x ∈ y :: ys := by
        rw [hx, ← hy]; exact List.mem_cons_self _ _
      rw [List.dedup_cons_of_mem hmem, hr]

theorem round_mono_q {x y : ℚ} (h : x ≤ y) : round x ≤ round y := by
  rw [round_eq, round_eq]
  exact Int.floor_le_floor (by linarith)

theorem percent_lt_90_iff (a b : ℕ) (hb : 0 < b) :
    (a : ℚ) / (b : ℚ) * 100 < 90 ↔ 10 * a < 9 * b := by
  have hbq : (0 : ℚ) < (b : ℚ) := by exact_mod_cast hb
  rw [div_mul_eq_mul_div, div_lt_iff₀ hbq]
  have h : (a : ℚ) * 100 < 90 * (b : ℚ) ↔ ((10 * a : ℕ) : ℚ) < ((9 * b : ℕ) : ℚ) := by
    push_cast
    constructor <;> intro hx <;> linarith
  rw [h]
  exact_mod_cast Iff.rfl

/-! ## Claim theorems -/

/-- C10: validateFingerprintData coerces each axis through
Number(x) || 50, so a numeric 0 on any axis is reported as 50 — exactly
as a missing or non-numeric axis is — and a 0 score never survives
validation. -/
theorem validateFingerprintData_zero_axis_neutralized (fp : FingerprintRaw) :
    ∃ v : ValidatedFingerprint, validateFingerprintData (some fp) = some v ∧
      (fp.consistency = some 0 → v.consistency = 50) ∧
      (fp.discovery = some 0 → v.discovery = 50) ∧
      (fp.variety = some 0 → v.variety = 50) ∧
      (fp.replayRate = some 0 → v.replayRate = 50) ∧
      (fp.exploration = some 0 → v.exploration = 50) ∧
      (fp.consistency = none → v.consistency = 50) := by
  refine ⟨_, rfl, ?_, ?_, ?_, ?_, ?_, ?_⟩ <;> intro h <;> simp [coerceAxis, h]

/-- Witness for C10 at a fingerprint whose five axes are all the number
0: every validated axis is 50. -/
theorem validateFingerprintData_zero_axis_neutralized_witness :
    ∃ v : ValidatedFingerprint,
      validateFingerprintData (some ⟨some 0, some 0, some 0, some 0, some 0⟩) = some v ∧
      v.consistency = 50 ∧ v.discovery = 50 ∧ v.variety = 50 ∧
      v.replayRate = 50 ∧ v.exploration = 50 := by
  obtain ⟨v, hv, h1, h2, h3, h4, h5, _⟩ :=
    validateFingerprintData_zero_axis_neutralized ⟨some 0, some 0, some 0, some 0, some 0⟩
  exact ⟨v, hv, h1 rfl, h2 rfl, h3 rfl, h4 rfl, h5 rfl⟩

/-- C1 counterexample: on a one-listen batch the max and min timestamps
coincide, yet Consistency is 100, not the neutral 50 the claim
states: the day-span denominator is clamped to 1, never zero. -/
theorem calculateConsistency_coincident_span_counterexample :
    (listMax ([({ listened_at := some 1000000000 } : Listen)].filterMap validTs) =
      listMin ([({ listened_at := some 1000000000 } : Listen)].filterMap validTs)) ∧
    calculateConsistency [({ listened_at := some 1000000000 } : Listen)] = 100 := by
  constructor
  · decide
  · have hts : ([({ listened_at := some 1000000000 } : Listen)].filterMap validTs) =
        [(1000000000 : Int)] := by decide
    have hd : (([(1000000000 : Int)].map dayKey).dedup.length) = 1 := by decide
    have hmax : listMax [(1000000000 : Int)] = 1000000000 := by decide
    have hmin : listMin [(1000000000 : Int)] = 1000000000 := by decide
    simp only [calculateConsistency, hts, hd, hmax, hmin]
    norm_num [round_eq]

/-- C1 (amended): the fingerprint engine returns the all-50 neutral
fingerprint on a missing or empty list; Consistency returns 50 when no
truthy timestamp exists, ReplayRate returns 50 when no keyed track
exists (zero-denominator ratio), and Exploration returns 50 when no
valid adjacent pair exists (zero-denominator ratio); but a batch whose
max and min timestamps coincide does not produce a zero denominator —
the day span is clamped below by 1 — and Consistency there returns 100,
not 50. -/
theorem fingerprint_neutral_empty_and_span_clamp :
    (∀ log2 : ℚ → ℚ,
      calculateListeningFingerprint log2 none = ⟨50, 50, 50, 50, 50⟩) ∧
    (∀ log2 : ℚ → ℚ,
      calculateListeningFingerprint log2 (some []) = ⟨50, 50, 50, 50, 50⟩) ∧
    (∀ listens : List Listen, listens.filterMap validTs = [] →
      calculateConsistency listens = 50) ∧
    (∀ listens : List Listen,
      ((listens.map trackKey).filter (fun k => k ≠ "-")).dedup.length = 0 →
      calculateReplayRate listens = 50) ∧
    (∀ listens : List Listen,
      (((listens.mergeSort tsLe).zip (listens.mergeSort tsLe).tail).filter
        (fun p => genreOf p.1 ≠ "Unknown" && genreOf p.2 ≠ "Unknown")).length = 0 →
      calculateExploration listens = 50) ∧
    (∀ (listens : List Listen) (t : Int), listens.filterMap validTs ≠ [] →
      (∀ u ∈ listens.filterMap validTs, u = t) →
      calculateConsistency listens = 100) := by
  refine ⟨fun _ => rfl, fun _ => rfl, ?_, ?_, ?_, ?_⟩
  · intro listens h
    simp [calculateConsistency, h]
  · intro listens h
    simp only [calculateReplayRate]
    rw [if_pos h]
  · intro listens h
    simp only [calculateExploration]
    rw [if_pos h]
  · intro listens t hne hall
    have hmax : listMax (listens.filterMap validTs) = t :=
      listMax_all_eq _ t hne hall
    have hmin : listMin (listens.filterMap validTs) = t :=
      listMin_all_eq _ t hne hall
    have hdays : ((listens.filterMap validTs).map dayKey).dedup = [dayKey t] := by
      refine dedup_all_eq _ _ (by simpa using hne) ?_
      intro u hu
      obtain ⟨v, hv, rfl⟩ := List.mem_map.mp hu
      rw [hall v hv]
    have hlen : (listens.filterMap validTs).length ≠ 0 := by
      simpa [List.length_eq_zero] using hne
    simp only [calculateConsistency, hmax, hmin, hdays, if_neg hlen]
    norm_num

/-- Witness for C1 (amended) at a missing corpus, an empty batch, a
batch whose only track key is the bare dash, a one-listen batch with no
valid adjacent pair, and a one-listen batch with coincident
timestamps. -/
theorem fingerprint_neutral_empty_and_span_clamp_witness :
    calculateListeningFingerprint (fun _ => 0) none = ⟨50, 50, 50, 50, 50⟩ ∧
    calculateConsistency [] = 50 ∧
    calculateReplayRate
      [({ artistName := some "", trackName := some "" } : Listen)] = 50 ∧
    calculateExploration [({ listened_at := some 946684800 } : Listen)] = 50 ∧
    calculateConsistency [({ listened_at := some 946684800 } : Listen)] = 100 := by
  obtain ⟨h1, _, h3, h4, h5, h6⟩ := fingerprint_neutral_empty_and_span_clamp
  exact ⟨h1 _, h3 [] rfl,
    h4 [({ artistName := some "", trackName := some "" } : Listen)] (by decide),
    h5 [({ listened_at := some 946684800 } : Listen)] (by simp),
    h6 [({ listened_at := some 946684800 } : Listen)] 946684800 (by decide) (by decide)⟩

/-- C2 counterexample: a batch whose single listened_at is exactly the
lower endpoint 946684800 lies inside the closed interval the claim
describes, so the claim predicts success; the code counts it invalid
(strict comparison) and fails, and the sample-offending-value probe finds
nothing because its own comparison is non-strict. -/
theorem validateUniversalData_closed_interval_counterexample :
    ((946684800 : ℚ) ≤ 946684800 ∧ (946684800 : ℚ) ≤ 2147483647) ∧
    validateUniversalData [JsTs.num 946684800] = .invalidQuality none "number" := by
  refine ⟨⟨le_refl _, by norm_num⟩, ?_⟩
  have hfm : ([JsTs.num 946684800].filterMap tsFilterKeep) = [] := by decide
  have hfind : ([JsTs.num 946684800].find? tsSampleInvalid) = none := by decide
  simp only [validateUniversalData, hfm, hfind, List.length_nil, List.length_cons,
    typeofTs]
  norm_num

/-- C2 (amended): validation fails with DataQualityError iff the
fraction of listens whose listened_at is a number strictly between
946684800 and 2147483647 is below 90 percent — a listen exactly at an
endpoint counts as invalid — and the failure carries the first value
that is not a number or lies strictly outside the bounds (possibly
absent when only endpoint values offend) together with the type of the
first timestamp. -/
theorem validateUniversalData_quality_strict_interval
    (timestamps : List JsTs) (t0 : JsTs) (rest : List JsTs)
    (h : timestamps = t0 :: rest) :
    (10 * (timestamps.filterMap tsFilterKeep).length < 9 * timestamps.length ↔
      validateUniversalData timestamps =
        .invalidQuality (timestamps.find? tsSampleInvalid) (typeofTs t0)) ∧
    (∀ s d, validateUniversalData timestamps = .invalidQuality s d →
      10 * (timestamps.filterMap tsFilterKeep).length < 9 * timestamps.length) := by
  subst h
  have hb : 0 < (t0 :: rest).length := by simp
  have hiff := percent_lt_90_iff ((t0 :: rest).filterMap tsFilterKeep).length
    (t0 :: rest).length hb
  constructor
  · constructor
    · intro hlt
      simp only [validateUniversalData]
      rw [if_pos (hiff.mpr hlt)]
    · intro heq
      by_contra hge
      simp only [validateUniversalData] at heq
      rw [if_neg (fun hc => hge (hiff.mp hc))] at heq
      split at heq <;> simp at heq
  · intro s d heq
    by_contra hge
    simp only [validateUniversalData] at heq
    rw [if_neg (fun hc => hge (hiff.mp hc))] at heq
    split at heq <;> simp at heq

/-- Witness for C2 (amended) at a batch with the single non-plausible
timestamp 0: validation fails and carries the sample 0 and its type. -/
theorem validateUniversalData_quality_strict_interval_witness :
    validateUniversalData [JsTs.num 0] = .invalidQuality (some (.num 0)) "number" := by
  have h :=
    (validateUniversalData_quality_strict_interval [JsTs.num 0] (.num 0) [] rfl).1.mp
      (by decide)
  exact h.trans (by decide)

/-- Concrete valid-timestamp lists of the 29-day and 31-day span
scenarios. -/
theorem span_scenario_filterMaps :
    ([JsTs.num 1000000000, JsTs.num 1002505600].filterMap tsFilterKeep) =
      [(1000000000 : ℚ), 1002505600] ∧
    ([JsTs.num 1000000000, JsTs.num 1002678400].filterMap tsFilterKeep) =
      [(1000000000 : ℚ), 1002678400] := by
  constructor <;> decide

/-- C3: for a batch passing the plausibility check, the span check fails
with InsufficientHistoryError iff the span of the valid timestamps is
under 2524608 seconds (0.08 years, about 29.2 days); in particular a
29-day span fails and a 31-day span passes. -/
theorem validateUniversalData_minimum_span :
    (∀ (timestamps : List JsTs) (t0 : JsTs) (rest : List JsTs),
      timestamps = t0 :: rest →
      ¬(10 * (timestamps.filterMap tsFilterKeep).length < 9 * timestamps.length) →
      (validateUniversalData timestamps = .invalidSpan ↔
        listMaxQ (timestamps.filterMap tsFilterKeep) -
          listMinQ (timestamps.filterMap tsFilterKeep) < 2524608)) ∧
    validateUniversalData
      [JsTs.num 1000000000, JsTs.num 1002505600] = .invalidSpan ∧
    (∃ e l, validateUniversalData
      [JsTs.num 1000000000, JsTs.num 1002678400] = .valid e l) := by
  have hmain : ∀ (timestamps : List JsTs) (t0 : JsTs) (rest : List JsTs),
      timestamps = t0 :: rest →
      ¬(10 * (timestamps.filterMap tsFilterKeep).length < 9 * timestamps.length) →
      (validateUniversalData timestamps = .invalidSpan ↔
        listMaxQ (timestamps.filterMap tsFilterKeep) -
          listMinQ (timestamps.filterMap tsFilterKeep) < 2524608) := by
    intro timestamps t0 rest h hq
    subst h
    have hb : 0 < (t0 :: rest).length := by simp
    have hiff := percent_lt_90_iff ((t0 :: rest).filterMap tsFilterKeep).length
      (t0 :: rest).length hb
    simp only [validateUniversalData]
    rw [if_neg (fun hc => hq (hiff.mp hc))]
    have hconv :
        (listMaxQ ((t0 :: rest).filterMap tsFilterKeep) -
          listMinQ ((t0 :: rest).filterMap tsFilterKeep)) /
            (365.25 * 24 * 60 * 60) < 0.08 ↔
        listMaxQ ((t0 :: rest).filterMap tsFilterKeep) -
          listMinQ ((t0 :: rest).filterMap tsFilterKeep) < 2524608 := by
      rw [div_lt_iff₀ (by norm_num : (0 : ℚ) < 365.25 * 24 * 60 * 60)]
      norm_num
    by_cases hspan : listMaxQ ((t0 :: rest).filterMap tsFilterKeep) -
        listMinQ ((t0 :: rest).filterMap tsFilterKeep) < 2524608
    · rw [if_pos (hconv.mpr hspan)]
      simp [hspan]
    · rw [if_neg (fun hc => hspan (hconv.mp hc))]
      simp [hspan]
  refine ⟨hmain, ?_, ?_⟩
  · rw [hmain _ (.num 1000000000) [.num 1002505600] rfl (by decide),
      span_scenario_filterMaps.1]
    have hmax : listMaxQ [(1000000000 : ℚ), 1002505600] = 1002505600 := by decide
    have hmin : listMinQ [(1000000000 : ℚ), 1002505600] = 1000000000 := by decide
    rw [hmax, hmin]
    norm_num
  · refine ⟨listMinQ ([JsTs.num 1000000000, JsTs.num 1002678400].filterMap tsFilterKeep),
      listMaxQ ([JsTs.num 1000000000, JsTs.num 1002678400].filterMap tsFilterKeep), ?_⟩
    have hb : 0 < ([JsTs.num 1000000000, JsTs.num 1002678400] : List JsTs).length := by
      simp
    have hmax : listMaxQ [(1000000000 : ℚ), 1002678400] = 1002678400 := by decide
    have hmin : listMinQ [(1000000000 : ℚ), 1002678400] = 1000000000 := by decide
    have hspan : ¬((listMaxQ (([JsTs.num 1000000000, JsTs.num 1002678400] :
          List JsTs).filterMap tsFilterKeep) -
        listMinQ (([JsTs.num 1000000000, JsTs.num 1002678400] :
          List JsTs).filterMap tsFilterKeep)) / (365.25 * 24 * 60 * 60) < 0.08) := by
      rw [span_scenario_filterMaps.2, hmax, hmin]
      norm_num
    simp only [validateUniversalData]
    rw [if_neg (fun hc => absurd ((percent_lt_90_iff _ _ hb).mp hc) (by decide)),
      if_neg hspan]

/-- Witness for C3 at a two-listen batch spanning exactly 29 days: the
span checked by the code is below the 2524608-second threshold. -/
theorem validateUniversalData_minimum_span_witness :
    listMaxQ ([JsTs.num 1000000000, JsTs.num 1002505600].filterMap tsFilterKeep) -
      listMinQ ([JsTs.num 1000000000, JsTs.num 1002505600].filterMap tsFilterKeep) <
      2524608 := by
  exact (validateUniversalData_minimum_span.1 _ (.num 1000000000) [.num 1002505600]
    rfl (by decide)).mp validateUniversalData_minimum_span.2.1

theorem snd_mem_of_mem_enum {α : Type} {iv : Nat × α} {l : List α}
    (h : iv ∈ l.enum) : iv.2 ∈ l := by
  have hm := List.mem_map_of_mem Prod.snd h
  rwa [List.enum_eq_enumFrom, List.enumFrom_map_snd] at hm

/-- C4: the Spotify parser keeps exactly the records with a truthy
timestamp, a resolvable track name (explicit name or track URI), a truthy
artist and at least 30000 ms played; every parsed record carries
msPlayed at least 30000, a record with exactly 30000 ms passes the
filter, and the dropped records are counted while the parser still
reports success. -/
theorem parseSpotifyFormat_thirty_second_filter
    (sanitize : String → String) (dateParseMs : String → Int)
    (items : List SpotifyItem) :
    (parseSpotifyFormat sanitize dateParseMs (some items)).success = true ∧
    (∀ rec ∈ (parseSpotifyFormat sanitize dateParseMs (some items)).listens,
      30000 ≤ rec.msPlayed) ∧
    (parseSpotifyFormat sanitize dateParseMs (some items)).count +
      (parseSpotifyFormat sanitize dateParseMs (some items)).filtered =
      items.length ∧
    (parseSpotifyFormat sanitize dateParseMs (some items)).filtered =
      items.length - (items.filter spotifyKeep).length ∧
    (∀ i : SpotifyItem, spotifyKeep i = true ↔
      (truthyStr i.ts = true ∧
       (truthyStr i.master_metadata_track_name = true ∨
        truthyStr i.spotify_track_uri = true) ∧
       truthyStr i.master_metadata_album_artist_name = true ∧
       30000 ≤ msPlayedVal i)) ∧
    (∀ i : SpotifyItem, truthyStr i.ts = true →
      (truthyStr i.master_metadata_track_name = true ∨
       truthyStr i.spotify_track_uri = true) →
      truthyStr i.master_metadata_album_artist_name = true →
      i.ms_played = some 30000 → spotifyKeep i = true) := by
  refine ⟨rfl, ?_, ?_, rfl, ?_, ?_⟩
  · intro rec hrec
    simp only [parseSpotifyFormat] at hrec
    obtain ⟨iv, hiv, rfl⟩ := List.mem_map.mp hrec
    have hmem : iv.2 ∈ items.filter spotifyKeep := snd_mem_of_mem_enum hiv
    have hkeep : spotifyKeep iv.2 = true := (List.mem_filter.mp hmem).2
    simp only [spotifyKeep, Bool.and_eq_true, decide_eq_true_eq] at hkeep
    exact hkeep.2
  · simp only [parseSpotifyFormat, List.length_map, List.enum_eq_enumFrom,
      List.enumFrom_length]
    exact Nat.add_sub_cancel' (List.length_filter_le _ _)
  · intro i
    simp [spotifyKeep, Bool.and_eq_true, Bool.or_eq_true, decide_eq_true_eq,
      and_assoc]
  · intro i h1 h2 h3 h4
    simp [spotifyKeep, h1, h2, h3, msPlayedVal, h4]

/-- Witness for C4 on a two-record batch: one record with exactly 30000
ms played and full metadata is kept, the 29999 ms record is dropped and
counted, and the parse succeeds. -/
theorem parseSpotifyFormat_thirty_second_filter_witness :
    (parseSpotifyFormat id (fun _ => 0)
      (some [{ ts := some "2024-01-01T00:00:00Z",
               master_metadata_track_name := some "Song",
               master_metadata_album_artist_name := some "Artist",
               ms_played := some 30000 },
             { ts := some "2024-01-01T00:00:00Z",
               master_metadata_track_name := some "Song",
               master_metadata_album_artist_name := some "Artist",
               ms_played := some 29999 }])).success = true ∧
    spotifyKeep { ts := some "2024-01-01T00:00:00Z",
                  master_metadata_track_name := some "Song",
                  master_metadata_album_artist_name := some "Artist",
                  ms_played := some 30000 } = true ∧
    (parseSpotifyFormat id (fun _ => 0)
      (some [{ ts := some "2024-01-01T00:00:00Z",
               master_metadata_track_name := some "Song",
               master_metadata_album_artist_name := some "Artist",
               ms_played := some 30000 },
             { ts := some "2024-01-01T00:00:00Z",
               master_metadata_track_name := some "Song",
               master_metadata_album_artist_name := some "Artist",
               ms_played := some 29999 }])).filtered = 1 := by
  obtain ⟨hs, _, _, hf, _, hacc⟩ := parseSpotifyFormat_thirty_second_filter id
    (fun _ => 0)
    [{ ts := some "2024-01-01T00:00:00Z",
       master_metadata_track_name := some "Song",
       master_metadata_album_artist_name := some "Artist",
       ms_played := some 30000 },
     { ts := some "2024-01-01T00:00:00Z",
       master_metadata_track_name := some "Song",
       master_metadata_album_artist_name := some "Artist",
       ms_played := some 29999 }]
  refine ⟨hs, hacc _ (by decide) (Or.inl (by decide)) (by decide) rfl, ?_⟩
  rw [hf]
  decide

/-- C5 counterexample: an object carrying a payload.listens sequence is
not recognized by the universalParser detector — it has no envelope rule
— and with no file-name hint detection fails with the unknown-format
error instead of returning ListenBrainz. -/
theorem detectDataFormat_payload_envelope_counterexample :
    payloadHasListens (.obj { payloadListensIsArray := true }) = true ∧
    detectDataFormat (.obj { payloadListensIsArray := true }) "" =
      .error "Unknown data format. Please upload ListenBrainz or Spotify extended streaming history JSON files." := by
  exact ⟨rfl, by decide⟩

/-- C5 (amended): only the streaming-variant detector implements the
ListenBrainz API envelope rule: for every object with a payload.listens
sequence it returns the ListenBrainz format regardless of the file name;
the universalParser detector has no such rule and such an object falls
through to the file-name heuristic or fails. -/
theorem detectDataFormatStreaming_payload_envelope
    (o : JsObject) (fileName : String) (h : o.payloadListensIsArray = true) :
    detectDataFormatStreaming (.obj o) fileName = .ok "listenbrainz" := by
  simp [detectDataFormatStreaming, detectStreamingFallback, payloadHasListens, h]

/-- Witness for C5 (amended) at a concrete envelope object and an
unhelpful file name. -/
theorem detectDataFormatStreaming_payload_envelope_witness :
    detectDataFormatStreaming (.obj { payloadListensIsArray := true })
      "history.json" = .ok "listenbrainz" :=
  detectDataFormatStreaming_payload_envelope _ "history.json" rfl

/-- C6 counterexample: the epoch-milliseconds input 3e12 decodes to 3e9
epoch seconds, above the canonical maximum 2147483647, and is returned
as-is rather than being replaced by the now fallback — normalization does
not always yield a value in the canonical range. -/
theorem convertSpotifyTimestamp_range_counterexample :
    convertSpotifyTimestamp (fun _ => none) 1760000000000 (-2208988800000)
      (.num 3000000000000) = 3000000000 ∧
    ¬(convertSpotifyTimestamp (fun _ => none) 1760000000000 (-2208988800000)
      (.num 3000000000000) ≤ 2147483647) := by
  have h : convertSpotifyTimestamp (fun _ => none) 1760000000000 (-2208988800000)
      (.num 3000000000000) = 3000000000 := by
    simp only [convertSpotifyTimestamp]
    rw [if_pos (by norm_num)]
    norm_num
  refine ⟨h, ?_⟩
  rw [h]
  norm_num

/-- C6 (amended): normalization is a total function — it never raises —
and input of an unrecognized encoding, or a date string the date parser
rejects, is replaced by the current-time fallback; a numeric value in the
epoch-seconds window (1e9, 2e9) is returned unchanged and lies in the
canonical range; but a decodable value whose decoded seconds fall outside
the canonical range is returned out of range rather than replaced. -/
theorem convertSpotifyTimestamp_fallback_behavior :
    (∀ (d : String → Option Int) (n e : Int),
      convertSpotifyTimestamp d n e .other = ((Int.fdiv n 1000 : Int) : ℚ)) ∧
    (∀ (d : String → Option Int) (n e : Int) (s : String), d s = none →
      convertSpotifyTimestamp d n e (.str s) = ((Int.fdiv n 1000 : Int) : ℚ)) ∧
    (∀ (d : String → Option Int) (n e : Int) (q : ℚ),
      1000000000 < q → q < 2000000000 →
      convertSpotifyTimestamp d n e (.num q) = q ∧
        946684800 ≤ q ∧ q ≤ 2147483647) := by
  refine ⟨fun d n e => rfl, ?_, ?_⟩
  · intro d n e s hs
    simp [convertSpotifyTimestamp, hs]
  · intro d n e q h1 h2
    have hnot : ¬(1000000000000 < q) := by
      intro hc
      have : (2000000000 : ℚ) < 1000000000000 := by norm_num
      linarith
    refine ⟨?_, by linarith [show (946684800 : ℚ) < 1000000000 by norm_num],
      by linarith [show (2000000000 : ℚ) < 2147483647 by norm_num]⟩
    simp only [convertSpotifyTimestamp]
    rw [if_neg hnot, if_pos ⟨h1, h2⟩]

/-- Witness for C6 (amended) at an unrecognized value, a rejected date
string and an in-window epoch-seconds number. -/
theorem convertSpotifyTimestamp_fallback_behavior_witness :
    convertSpotifyTimestamp (fun _ => none) 1700000000000 0 .other = 1700000000 ∧
    convertSpotifyTimestamp (fun _ => none) 1700000000000 0 (.str "garbage") =
      1700000000 ∧
    convertSpotifyTimestamp (fun _ => none) 1700000000000 0 (.num 1500000000) =
      1500000000 := by
  obtain ⟨h1, h2, h3⟩ := convertSpotifyTimestamp_fallback_behavior
  have hf : Int.fdiv 1700000000000 1000 = 1700000000 := by decide
  refine ⟨?_, ?_, (h3 _ _ _ _ (by decide) (by decide)).1⟩
  · rw [h1, hf]; norm_num
  · rw [h2 _ _ _ _ rfl, hf]; norm_num

theorem accumulateListens_foldl (files : List FileUnit) :
    ∀ acc : List Listen,
      files.foldl (fun acc f =>
        match f.parseOutcome with
        | .ok listens => acc ++ listens
        | .error _ => acc) acc = acc ++ accumulateListens files := by
  induction files with
  | nil => intro acc; simp [accumulateListens]
  | cons f fs ih =>
    intro acc
    simp only [accumulateListens, List.foldl_cons]
    cases hout : f.parseOutcome with
    | ok listens =>
      simp only [hout]
      rw [ih (acc ++ listens), ih ([] ++ listens)]
      simp
    | error m =>
      simp only [hout]
      rw [ih acc, ih []]
      simp

theorem accumulateListens_cons (f : FileUnit) (fs : List FileUnit) :
    accumulateListens (f :: fs) =
      (match f.parseOutcome with
       | .ok listens => listens
       | .error _ => []) ++ accumulateListens fs := by
  show List.foldl _ _ (f :: fs) = _
  rw [List.foldl_cons, accumulateListens_foldl]
  cases f.parseOutcome <;> simp

theorem accumulateListens_filter_ok (files : List FileUnit) :
    accumulateListens (files.filter (fun f => outcomeOk f)) =
      accumulateListens files := by
  induction files with
  | nil => rfl
  | cons f fs ih =>
    cases hout : f.parseOutcome with
    | ok listens =>
      rw [List.filter_cons_of_pos (by simp [outcomeOk, hout]),
        accumulateListens_cons, accumulateListens_cons, ih]
    | error msg =>
      rw [List.filter_cons_of_neg (by simp [outcomeOk, hout]),
        accumulateListens_cons, ih, hout]
      simp

theorem sum_map_size_filter_le (files : List FileUnit) (p : FileUnit → Bool) :
    ((files.filter p).map (fun f => f.size)).sum ≤
      (files.map (fun f => f.size)).sum := by
  induction files with
  | nil => simp
  | cons f fs ih =>
    by_cases hp : p f
    · rw [List.filter_cons_of_pos hp]
      simp only [List.map_cons, List.sum_cons]
      exact Nat.add_le_add_left ih f.size
    · rw [List.filter_cons_of_neg hp]
      simp only [List.map_cons, List.sum_cons]
      exact le_trans ih (Nat.le_add_left _ _)

/-- C8: a per-unit failure is skipped while the run continues — the
result equals that of the run over only the successfully parsed units —
and under the collaborator contracts (size ceiling respected, merge
succeeds) a run fails terminally only with NoValidListens on an empty
aggregate or with the corpus-wide validation failure; a non-empty
aggregate passing that validation yields success. -/
theorem parseFiles_partial_failure_tolerance
    (files : List FileUnit)
    (cleanGenreData : List Listen → List Listen)
    (mergeListeningData : List Listen → MergeOutcome)
    (validateListeningData : List Listen → Bool)
    (hsize : (files.map (fun f => f.size)).sum ≤ 250 * 1024 * 1024)
    (hmerge : ∀ l, (mergeListeningData l).success = true) :
    parseFiles files cleanGenreData mergeListeningData validateListeningData =
      parseFiles (files.filter (fun f => outcomeOk f)) cleanGenreData
        mergeListeningData validateListeningData ∧
    (∀ e, parseFiles files cleanGenreData mergeListeningData validateListeningData =
        .error e → e = .noValidListens ∨ e = .validationFailed) ∧
    (accumulateListens files ≠ [] →
      validateListeningData (mergeListeningData (cleanGenreData
        ((accumulateListens files).mergeSort
          (fun a b => sortKeyOrZero a ≤ sortKeyOrZero b)))).data = true →
      parseFiles files cleanGenreData mergeListeningData validateListeningData =
        .ok ((mergeListeningData (cleanGenreData
            ((accumulateListens files).mergeSort
              (fun a b => sortKeyOrZero a ≤ sortKeyOrZero b)))).data,
          (mergeListeningData (cleanGenreData
            ((accumulateListens files).mergeSort
              (fun a b => sortKeyOrZero a ≤ sortKeyOrZero b)))).duplicates)) := by
  have hnf : ¬(250 * 1024 * 1024 < (files.map (fun f => f.size)).sum) :=
    not_lt.mpr hsize
  have hnf2 : ¬(250 * 1024 * 1024 <
      ((files.filter (fun f => outcomeOk f)).map (fun f => f.size)).sum) :=
    not_lt.mpr (le_trans (sum_map_size_filter_le files _) hsize)
  refine ⟨?_, ?_, ?_⟩
  · simp only [parseFiles]
    rw [if_neg hnf, if_neg hnf2, accumulateListens_filter_ok]
  · intro e he
    simp only [parseFiles] at he
    rw [if_neg hnf] at he
    by_cases hacc : (accumulateListens files).length = 0
    · rw [if_pos hacc] at he
      cases he
      exact Or.inl rfl
    · rw [if_neg hacc, if_neg (by simp [hmerge])] at he
      by_cases hval : validateListeningData (mergeListeningData (cleanGenreData
          ((accumulateListens files).mergeSort
            (fun a b => sortKeyOrZero a ≤ sortKeyOrZero b)))).data = false
      · rw [if_pos hval] at he
        cases he
        exact Or.inr rfl
      · rw [if_neg hval] at he
        cases he
  · intro hne hval
    simp only [parseFiles]
    rw [if_neg hnf, if_neg (by simpa [List.length_eq_zero] using hne),
      if_neg (by simp [hmerge]), if_neg (by simp [hval])]

/-- Witness for C8 on a run with one failing unit and one good unit: the
bad unit is skipped, the run equals the good-only run and succeeds with
the good listens. -/
theorem parseFiles_partial_failure_tolerance_witness :
    parseFiles [⟨10, .error "bad"⟩, ⟨10, .ok [{ listened_at := some 5 }]⟩]
        id (fun l => ⟨true, l, 0⟩) (fun _ => true) =
      parseFiles [⟨10, .ok [{ listened_at := some 5 }]⟩]
        id (fun l => ⟨true, l, 0⟩) (fun _ => true) ∧
    parseFiles [⟨10, .error "bad"⟩, ⟨10, .ok [{ listened_at := some 5 }]⟩]
        id (fun l => ⟨true, l, 0⟩) (fun _ => true) =
      .ok ([{ listened_at := some 5 }], 0) := by
  obtain ⟨h1, _, h3⟩ := parseFiles_partial_failure_tolerance
    [⟨10, .error "bad"⟩, ⟨10, .ok [{ listened_at := some 5 }]⟩]
    id (fun l => ⟨true, l, 0⟩) (fun _ => true) (by decide) (fun _ => rfl)
  have hacc : accumulateListens
      [⟨10, .error "bad"⟩, ⟨10, .ok [{ listened_at := some 5 }]⟩] =
      [({ listened_at := some 5 } : Listen)] := rfl
  constructor
  · rw [h1]
    rfl
  · have h := h3 (by rw [hacc]; exact List.cons_ne_nil _ _) rfl
    rw [h]
    simp [hacc]

theorem foldl_min_init (a : Int) : ∀ (ys : List Int) (b : Int),
    ys.foldl min (min a b) = min a (ys.foldl min b) := by
  intro ys
  induction ys with
  | nil => intro b; rfl
  | cons c cs ih =>
    intro b
    simp only [List.foldl_cons]
    rw [min_assoc, ih]

theorem foldl_min_le_init : ∀ (ys : List Int) (a : Int), ys.foldl min a ≤ a := by
  intro ys
  induction ys with
  | nil => intro a; exact le_refl a
  | cons c cs ih =>
    intro a
    simp only [List.foldl_cons]
    exact le_trans (ih (min a c)) (min_le_left a c)

theorem chain_last_min : ∀ (xs : List Int) (hne : xs ≠ []),
    List.Chain' (fun a b => b ≤ a) xs → xs.getLast hne = listMin xs := by
  intro xs
  induction xs with
  | nil => intro hne; cases hne rfl
  | cons x ys ih =>
    intro hne hchain
    cases ys with
    | nil => rfl
    | cons y zs =>
      obtain ⟨hxy, htail⟩ := List.chain'_cons.mp hchain
      have hlast : (x :: y :: zs).getLast hne = (y :: zs).getLast (by simp) :=
        List.getLast_cons _
      have hmin : listMin (x :: y :: zs) = min x (listMin (y :: zs)) := by
        show List.foldl min x (y :: zs) = _
        rw [List.foldl_cons, foldl_min_init]
        rfl
      rw [hlast, ih (by simp) htail, hmin]
      have hle : listMin (y :: zs) ≤ x :=
        le_trans (foldl_min_le_init zs y) hxy
      exact (min_eq_right hle).symm

theorem filterMap_listened_eq_map (page : List LBRec)
    (htruthy : ∀ r ∈ page, recTsTruthy r = true) :
    page.filterMap (fun r => r.listened_at) =
      page.map (fun r => r.listened_at.getD 0) := by
  induction page with
  | nil => rfl
  | cons r rs ih =>
    have hr := htruthy r (List.mem_cons_self _ _)
    cases hts : r.listened_at with
    | none => simp [recTsTruthy, hts] at hr
    | some t =>
      simp only [List.filterMap_cons, List.map_cons, hts, Option.getD_some]
      rw [ih (fun u hu => htruthy u (List.mem_cons_of_mem _ hu))]

theorem oldestTs_eq_pageOldest (page : List LBRec) (hne : page ≠ [])
    (htruthy : ∀ r ∈ page, recTsTruthy r = true)
    (hsort : List.Chain' (fun a b =>
      b.listened_at.getD 0 ≤ a.listened_at.getD 0) page) :
    oldestTs page = some (pageOldest page) ∧ pageOldest page ≠ 0 := by
  have htr := htruthy _ (List.getLast_mem hne)
  cases hts : (page.getLast hne).listened_at with
  | none => simp [recTsTruthy, hts] at htr
  | some t =>
    have ht0 : t ≠ 0 := by simpa [recTsTruthy, hts] using htr
    have h1 : oldestTs page = some t := by
      simp [oldestTs, List.getLast?_eq_getLast page hne, hts]
    have hmapne : page.map (fun r => r.listened_at.getD 0) ≠ [] := by
      simpa using hne
    have hchain : List.Chain' (fun a b : Int => b ≤ a)
        (page.map (fun r => r.listened_at.getD 0)) :=
      (List.chain'_map _).mpr hsort
    have h2 : pageOldest page = t := by
      rw [pageOldest, filterMap_listened_eq_map page htruthy,
        ← chain_last_min _ hmapne hchain, List.getLast_map]
      simp [hts]
    rw [h1, h2]
    exact ⟨rfl, ht0⟩

theorem fetchAllTrace_head (fetchFn : Option Int → List LBRec) (batchSize : Nat)
    (cap : Option Nat) :
    ∀ (fuel : Nat) (c : Option Int) (t : Nat), 0 < fuel →
      ∃ rest, fetchAllTrace fetchFn batchSize cap fuel c t =
        (⟨c, fetchFn c, t + (fetchFn c).length⟩ : PageFetch) :: rest := by
  intro fuel c t hf
  match fuel, hf with
  | fuel + 1, _ =>
    simp only [fetchAllTrace]
    split
    · split
      · exact ⟨_, rfl⟩
      · exact ⟨[], rfl⟩
    · exact ⟨[], rfl⟩

theorem fetchAllTrace_ne_nil (fetchFn : Option Int → List LBRec) (batchSize : Nat)
    (cap : Option Nat) (fuel : Nat) (c : Option Int) (t : Nat) (hf : 0 < fuel) :
    fetchAllTrace fetchFn batchSize cap fuel c t ≠ [] := by
  obtain ⟨rest, hr⟩ := fetchAllTrace_head fetchFn batchSize cap fuel c t hf
  rw [hr]
  exact List.cons_ne_nil _ _

theorem getLast?_cons_of_ne_nil {α : Type} (a : α) {l : List α} (h : l ≠ []) :
    (a :: l).getLast? = l.getLast? := by
  cases l with
  | nil => cases h rfl
  | cons b bs => rfl

/-- C7: over a well-formed upstream (every page newest-first with truthy
timestamps), the scroll-back loop issues each fetch after the first with
cursor equal to the oldest listened_at of the previous page minus one;
every page followed by another fetch was non-empty, at least the
requested batch size, and below the optional record cap; and — when fuel
was not exhausted — the final page is empty, smaller than the requested
batch size, or hit the cap. -/
theorem fetchAllUserListens_pagination
    (fetchFn : Option Int → List LBRec) (batchSize : Nat) (cap : Option Nat)
    (hwf : ∀ c, (∀ r ∈ fetchFn c, recTsTruthy r = true) ∧
      List.Chain' (fun a b =>
        b.listened_at.getD 0 ≤ a.listened_at.getD 0) (fetchFn c)) :
    ∀ (fuel : Nat) (c0 : Option Int) (t0 : Nat),
      (∀ (i : Nat) (e1 e2 : PageFetch),
        (fetchAllTrace fetchFn batchSize cap fuel c0 t0)[i]? = some e1 →
        (fetchAllTrace fetchFn batchSize cap fuel c0 t0)[i + 1]? = some e2 →
        e2.cursor = some (pageOldest e1.page - 1)) ∧
      (∀ (i : Nat) (e1 e2 : PageFetch),
        (fetchAllTrace fetchFn batchSize cap fuel c0 t0)[i]? = some e1 →
        (fetchAllTrace fetchFn batchSize cap fuel c0 t0)[i + 1]? = some e2 →
        e1.page ≠ [] ∧ batchSize ≤ e1.page.length ∧
          capReached cap e1.totalAfter = false) ∧
      ((fetchAllTrace fetchFn batchSize cap fuel c0 t0).length < fuel →
        ∀ e : PageFetch,
          (fetchAllTrace fetchFn batchSize cap fuel c0 t0).getLast? = some e →
          e.page = [] ∨ e.page.length < batchSize ∨
            capReached cap e.totalAfter = true) := by
  intro fuel
  induction fuel with
  | zero =>
    intro c0 t0
    refine ⟨?_, ?_, ?_⟩
    · intro i e1 e2 hg1 hg2; simp [fetchAllTrace] at hg1
    · intro i e1 e2 hg1 hg2; simp [fetchAllTrace] at hg1
    · intro hlt; simp [fetchAllTrace] at hlt
  | succ n ih =>
    intro c0 t0
    by_cases hcont : fetchContinues batchSize cap
        ⟨c0, fetchFn c0, t0 + (fetchFn c0).length⟩ = true
    · -- the loop continues after the first page
      have hparts := hcont
      simp only [fetchContinues, Bool.and_eq_true, Bool.not_eq_true',
        decide_eq_true_eq, decide_eq_false_iff_not] at hparts
      obtain ⟨⟨⟨hlen0, hmatch⟩, hbs⟩, hcap⟩ := hparts
      have hpne : fetchFn c0 ≠ [] := by
        intro hc
        rw [hc] at hlen0
        exact hlen0 rfl
      obtain ⟨holdest, ht0⟩ :=
        oldestTs_eq_pageOldest (fetchFn c0) hpne (hwf c0).1 (hwf c0).2
      have htr : fetchAllTrace fetchFn batchSize cap (n + 1) c0 t0 =
          (⟨c0, fetchFn c0, t0 + (fetchFn c0).length⟩ : PageFetch) ::
            fetchAllTrace fetchFn batchSize cap n
              (some (pageOldest (fetchFn c0) - 1)) (t0 + (fetchFn c0).length) := by
        simp only [fetchAllTrace]
        rw [if_pos hcont, holdest]
      obtain ⟨ihc, ihg, ihl⟩ :=
        ih (some (pageOldest (fetchFn c0) - 1)) (t0 + (fetchFn c0).length)
      refine ⟨?_, ?_, ?_⟩
      · intro i e1 e2 hg1 hg2
        rw [htr] at hg1 hg2
        match i with
        | 0 =>
          rw [List.getElem?_cons_zero] at hg1
          rw [List.getElem?_cons_succ] at hg2
          cases hg1
          cases hrest : fetchAllTrace fetchFn batchSize cap n
              (some (pageOldest (fetchFn c0) - 1)) (t0 + (fetchFn c0).length) with
          | nil => rw [hrest] at hg2; simp at hg2
          | cons r rr =>
            have hn : 0 < n := by
              by_contra hn0
              have : n = 0 := by omega
              rw [this] at hrest
              simp [fetchAllTrace] at hrest
            obtain ⟨rest2, hr2⟩ := fetchAllTrace_head fetchFn batchSize cap n
              (some (pageOldest (fetchFn c0) - 1)) (t0 + (fetchFn c0).length) hn
            rw [hrest] at hr2 hg2
            rw [List.getElem?_cons_zero] at hg2
            cases hg2
            cases hr2
            rfl
        | j + 1 =>
          rw [List.getElem?_cons_succ] at hg1 hg2
          exact ihc j e1 e2 hg1 hg2
      · intro i e1 e2 hg1 hg2
        rw [htr] at hg1 hg2
        match i with
        | 0 =>
          rw [List.getElem?_cons_zero] at hg1
          cases hg1
          exact ⟨hpne, Nat.le_of_not_lt hbs, hcap⟩
        | j + 1 =>
          rw [List.getElem?_cons_succ] at hg1 hg2
          exact ihg j e1 e2 hg1 hg2
      · intro hlt e hlast
        rw [htr] at hlt hlast
        have hlt2 : (fetchAllTrace fetchFn batchSize cap n
            (some (pageOldest (fetchFn c0) - 1)) (t0 + (fetchFn c0).length)).length
            < n := by
          simpa using hlt
        have hrestne : fetchAllTrace fetchFn batchSize cap n
            (some (pageOldest (fetchFn c0) - 1)) (t0 + (fetchFn c0).length) ≠ [] := by
          apply fetchAllTrace_ne_nil
          omega
        rw [getLast?_cons_of_ne_nil _ hrestne] at hlast
        exact ihl hlt2 e hlast
    · -- the loop stops after the first page
      have htr : fetchAllTrace fetchFn batchSize cap (n + 1) c0 t0 =
          [(⟨c0, fetchFn c0, t0 + (fetchFn c0).length⟩ : PageFetch)] := by
        simp only [fetchAllTrace]
        rw [if_neg hcont]
      refine ⟨?_, ?_, ?_⟩
      · intro i e1 e2 hg1 hg2
        rw [htr] at hg2
        match i with
        | 0 => simp at hg2
        | j + 1 => simp at hg2
      · intro i e1 e2 hg1 hg2
        rw [htr] at hg2
        match i with
        | 0 => simp at hg2
        | j + 1 => simp at hg2
      · intro hlt e hlast
        rw [htr] at hlast
        simp only [List.getLast?_singleton, Option.some.injEq] at hlast
        subst hlast
        by_cases hempty : fetchFn c0 = []
        · exact Or.inl hempty
        · obtain ⟨holdest, ht0⟩ :=
            oldestTs_eq_pageOldest (fetchFn c0) hempty (hwf c0).1 (hwf c0).2
          by_cases hsize : (fetchFn c0).length < batchSize
          · exact Or.inr (Or.inl hsize)
          · refine Or.inr (Or.inr ?_)
            cases hb : capReached cap (t0 + (fetchFn c0).length) with
            | true => rfl
            | false =>
              exfalso
              apply hcont
              simp only [fetchContinues, holdest, Bool.and_eq_true,
                Bool.not_eq_true', decide_eq_true_eq, decide_eq_false_iff_not]
              exact ⟨⟨⟨fun h0 => hempty (List.length_eq_zero.mp h0),
                by simpa using ht0⟩, hsize⟩, hb⟩

/-- Witness for C7 on a two-page upstream: page one is [100, 90], so the
second fetch is issued with cursor 89 = oldest(page one) minus one. -/
theorem fetchAllUserListens_pagination_witness :
    (⟨some 89, [⟨some 80⟩], 3⟩ : PageFetch).cursor =
      some (pageOldest [(⟨some 100⟩ : LBRec), ⟨some 90⟩] - 1) := by
  have hwf : ∀ c : Option Int,
      (∀ r ∈ (fun c : Option Int => match c with
        | none => [(⟨some 100⟩ : LBRec), ⟨some 90⟩]
        | some x => if x = 89 then [(⟨some 80⟩ : LBRec)] else []) c,
        recTsTruthy r = true) ∧
      List.Chain' (fun a b => b.listened_at.getD 0 ≤ a.listened_at.getD 0)
        ((fun c : Option Int => match c with
          | none => [(⟨some 100⟩ : LBRec), ⟨some 90⟩]
          | some x => if x = 89 then [(⟨some 80⟩ : LBRec)] else []) c) := by
    intro c
    match c with
    | none => exact ⟨by decide, List.chain'_pair.mpr (by decide)⟩
    | some x =>
      by_cases hx : x = 89
      · subst hx
        exact ⟨by decide, List.chain'_singleton _⟩
      · refine ⟨?_, ?_⟩ <;> simp [hx]
  exact (fetchAllUserListens_pagination _ 2 none hwf 10 none 0).1 0
    ⟨none, [⟨some 100⟩, ⟨some 90⟩], 2⟩ ⟨some 89, [⟨some 80⟩], 3⟩
    (by decide) (by decide)

theorem genreResolved_all_eq (A : List Listen) (gA : String) (hgA : gA ≠ "Unknown")
    (hall : ∀ l ∈ A, genreOf l = gA) :
    genreResolved A = List.replicate A.length gA := by
  rw [genreResolved]
  have hmap : A.map genreOf = List.replicate A.length gA := by
    have h := List.eq_replicate_of_mem (l := A.map genreOf) (a := gA) ?_
    · simpa using h
    · intro b hb
      obtain ⟨l, hl, rfl⟩ := List.mem_map.mp hb
      exact hall l hl
  rw [hmap]
  apply List.filter_eq_self.mpr
  intro a ha
  have : a = gA := List.eq_of_mem_replicate ha
  subst this
  exact decide_eq_true hgA

/-- C9: at constant corpus size and identical artist and track counts,
Variety is monotonically non-decreasing in the normalized genre entropy;
and a single-genre corpus scores strictly lower than an
otherwise-identical corpus whose listens are spread uniformly over five
genres (under the defining identities of log2 at 1, 5 and 1/5). -/
theorem calculateVariety_genre_diversity_monotone :
    (∀ (log2 : ℚ → ℚ) (A B : List Listen),
      uniqueArtistCount A = uniqueArtistCount B →
      uniqueTrackCount A = uniqueTrackCount B →
      A.length = B.length →
      ¬(uniqueGenreCount A = 0) → ¬(uniqueGenreCount B = 0) →
      normalizedGenreEntropy log2 A ≤ normalizedGenreEntropy log2 B →
      calculateVariety log2 A ≤ calculateVariety log2 B) ∧
    (∀ (log2 : ℚ → ℚ) (A B : List Listen) (gA : String) (gs : List String),
      log2 1 = 0 → 0 < log2 5 → log2 (1/5) = -log2 5 →
      uniqueArtistCount A = uniqueArtistCount B →
      uniqueTrackCount A = uniqueTrackCount B →
      A.length = B.length → A ≠ [] →
      gA ≠ "Unknown" → (∀ l ∈ A, genreOf l = gA) →
      (genreResolved B).dedup = gs → gs.length = 5 →
      (∀ g ∈ gs, (genreResolved B).count g * 5 = B.length) →
      calculateVariety log2 A < calculateVariety log2 B) := by
  have key : ∀ (mb mc : ℚ), 0 ≤ mb → mb ≤ 100 → 0 ≤ mc → mc ≤ 100 →
      min (max (round ((0:ℚ) * 100 * (2/5) + mb * (3/10) + mc * (3/10))) 0) 100 <
      min (max (round ((1:ℚ) * 100 * (2/5) + mb * (3/10) + mc * (3/10))) 0) 100 := by
    intro mb mc h1 h2 h3 h4
    have e1 : (0:ℚ) * 100 * (2/5) + mb * (3/10) + mc * (3/10) =
        mb * (3/10) + mc * (3/10) := by ring
    have e2 : (1:ℚ) * 100 * (2/5) + mb * (3/10) + mc * (3/10) =
        (mb * (3/10) + mc * (3/10)) + ((40 : ℤ) : ℚ) := by push_cast; ring
    rw [e1, e2, round_add_int]
    have hT0 : (0:ℚ) ≤ mb * (3/10) + mc * (3/10) := by linarith
    have hT60 : mb * (3/10) + mc * (3/10) ≤ 60 := by linarith
    have hr0 : 0 ≤ round (mb * (3/10) + mc * (3/10)) := by
      simpa using round_mono_q hT0
    have hr60 : round (mb * (3/10) + mc * (3/10)) ≤ 60 := by
      have h := round_mono_q hT60
      rwa [show round (60:ℚ) = 60 by
        rw [show (60:ℚ) = ((60:ℤ):ℚ) by norm_num]; exact round_intCast 60] at h
    rw [max_eq_left hr0, max_eq_left (by omega), min_eq_left (by omega),
      min_eq_left (by omega)]
    omega
  constructor
  · intro log2 A B hua hut hlen hA0 hB0 hent
    simp only [calculateVariety]
    rw [if_neg hA0, if_neg hB0, ← hua, ← hut, ← hlen]
    refine min_le_min (max_le_max (round_mono_q ?_) le_rfl) le_rfl
    have hmul : normalizedGenreEntropy log2 A * 100 * (2/5) ≤
        normalizedGenreEntropy log2 B * 100 * (2/5) := by
      have h100 : normalizedGenreEntropy log2 A * 100 ≤
          normalizedGenreEntropy log2 B * 100 :=
        mul_le_mul_of_nonneg_right hent (by norm_num)
      exact mul_le_mul_of_nonneg_right h100 (by norm_num)
    linarith
  · intro log2 A B gA gs hlog1 hlog5 hlog15 hua hut hlen hAne hgA hallA hdedupB
      hlen5 hcount
    have hn0 : A.length ≠ 0 := by
      simpa [List.length_eq_zero] using hAne
    have hnq : ((A.length : ℚ)) ≠ 0 := by exact_mod_cast hn0
    have hlenB : B.length = A.length := hlen.symm
    -- the single-genre corpus has normalized entropy 0
    have hresA : genreResolved A = List.replicate A.length gA :=
      genreResolved_all_eq A gA hgA hallA
    have hrepne : List.replicate A.length gA ≠ [] := by
      intro hc
      have hlen0 := congrArg List.length hc
      simp at hlen0
      exact hAne hlen0
    have hdedupA : (genreResolved A).dedup = [gA] := by
      rw [hresA]
      exact dedup_all_eq gA _ hrepne (fun u hu => List.eq_of_mem_replicate hu)
    have hugA : uniqueGenreCount A = 1 := by
      rw [uniqueGenreCount, hdedupA]
      rfl
    have hentA : genreEntropy log2 A = 0 := by
      simp only [genreEntropy]
      rw [hdedupA]
      simp only [List.map_cons, List.map_nil, List.sum_cons, List.sum_nil]
      rw [hresA, List.count_replicate_self, div_self hnq, hlog1]
      norm_num
    have hmaxA : varietyMaxEntropy log2 A = 1 := by
      simp only [varietyMaxEntropy]
      rw [hugA]
      norm_num
    have hnormA : normalizedGenreEntropy log2 A = 0 := by
      simp only [normalizedGenreEntropy]
      rw [hentA, hmaxA]
      norm_num
    have hugB : uniqueGenreCount B = 5 := by
      rw [uniqueGenreCount, hdedupB, hlen5]
    have hBq : ((B.length : ℚ)) ≠ 0 := by
      rw [hlenB]
      exact hnq
    have hcount5 : ∀ g ∈ gs,
        ((genreResolved B).count g : ℚ) / (B.length : ℚ) = 1/5 := by
      intro g hg
      have h5 : ((genreResolved B).count g : ℚ) * 5 = (B.length : ℚ) := by
        exact_mod_cast congrArg (Nat.cast : ℕ → ℚ) (hcount g hg)
      field_simp
      linarith
    have hentB : genreEntropy log2 B = log2 5 := by
      simp only [genreEntropy]
      rw [hdedupB]
      have hmap : gs.map (fun g =>
          ((genreResolved B).count g : ℚ) / (B.length : ℚ) *
            log2 (((genreResolved B).count g : ℚ) / (B.length : ℚ))) =
          gs.map (fun _ => (1/5 : ℚ) * log2 (1/5)) :=
        List.map_congr_left (fun g hg => by rw [hcount5 g hg])
      rw [hmap, List.map_const', hlen5, List.sum_replicate, hlog15, nsmul_eq_mul]
      push_cast
      ring
    have hmaxB : varietyMaxEntropy log2 B = log2 5 := by
      simp only [varietyMaxEntropy]
      rw [hugB, if_pos (by norm_num)]
      norm_num
    have hnormB : normalizedGenreEntropy log2 B = 1 := by
      simp only [normalizedGenreEntropy]
      rw [hentB, hmaxB]
      exact div_self (ne_of_gt hlog5)
    simp only [calculateVariety]
    rw [if_neg (by simp [hugA]), if_neg (by simp [hugB])]
    rw [hnormA, hnormB, ← hua, ← hut, hlenB]
    exact key _ _
      (le_min (by positivity) (by norm_num)) (min_le_right _ _)
      (le_min (by positivity) (by norm_num)) (min_le_right _ _)

/-- Witness for C9 on two concrete five-listen corpora with identical
artists and tracks: all-rock versus five distinct genres spread one per
listen, under a concrete log2 satisfying the required identities. -/
theorem calculateVariety_genre_diversity_monotone_witness :
    calculateVariety (fun q : ℚ => if q = 5 then 2 else if q = 1/5 then -2 else 0)
      [{ listened_at := some 100, artistName := some "x",
         trackName := some "t1", genres := ["rock"] },
       { listened_at := some 200, artistName := some "x",
         trackName := some "t2", genres := ["rock"] },
       { listened_at := some 300, artistName := some "x",
         trackName := some "t3", genres := ["rock"] },
       { listened_at := some 400, artistName := some "x",
         trackName := some "t4", genres := ["rock"] },
       { listened_at := some 500, artistName := some "x",
         trackName := some "t5", genres := ["rock"] }] <
    calculateVariety (fun q : ℚ => if q = 5 then 2 else if q = 1/5 then -2 else 0)
      [{ listened_at := some 100, artistName := some "x",
         trackName := some "t1", genres := ["a"] },
       { listened_at := some 200, artistName := some "x",
         trackName := some "t2", genres := ["b"] },
       { listened_at := some 300, artistName := some "x",
         trackName := some "t3", genres := ["c"] },
       { listened_at := some 400, artistName := some "x",
         trackName := some "t4", genres := ["d"] },
       { listened_at := some 500, artistName := some "x",
         trackName := some "t5", genres := ["e"] }] := by
  exact calculateVariety_genre_diversity_monotone.2
    (fun q : ℚ => if q = 5 then 2 else if q = 1/5 then -2 else 0)
    _ _ "rock" ["a", "b", "c", "d", "e"]
    (by norm_num) (by norm_num) (by norm_num)
    (by decide) (by decide) (by decide) (by decide) (by decide) (by decide)
    (by decide) (by decide) (by decide)

end MusicQuest
